import Mathlib

/-!
Verification of the notebook-autograder core (`test_functions.py`) against its
natural-language specification.

Python strings are modelled as `List Char` (the ASCII fragment relevant to the
grading pipeline); machine integers do not overflow in the source, so `Nat`/`Int`
suffice.  Fallible Python code (list indexing that may raise `IndexError`,
subprocess calls that may raise `CalledProcessError`, notebook execution) is
modelled with `Except`, carrying the Python exception message.
-/

namespace Grading

/-- A Python `str`, modelled as its list of characters. -/
abbrev PyStr := List Char

/-- Convert a Lean string literal to a `PyStr`. -/
def pys (s : String) : PyStr := s.toList

/-- Python's `\s` / `str.strip()` whitespace characters (ASCII fragment). -/
def isPySpace (c : Char) : Bool :=
  c == ' ' || c == '\t' || c == '\n' || c == '\r' || c == '\x0b' || c == '\x0c'

/-- Python's `str.lower()` on the ASCII fragment: map each of `A`–`Z` to its
lowercase counterpart and leave every other character unchanged. -/
def pyCharLower : Char → Char
  | 'A' => 'a' | 'B' => 'b' | 'C' => 'c' | 'D' => 'd' | 'E' => 'e' | 'F' => 'f'
  | 'G' => 'g' | 'H' => 'h' | 'I' => 'i' | 'J' => 'j' | 'K' => 'k' | 'L' => 'l'
  | 'M' => 'm' | 'N' => 'n' | 'O' => 'o' | 'P' => 'p' | 'Q' => 'q' | 'R' => 'r'
  | 'S' => 's' | 'T' => 't' | 'U' => 'u' | 'V' => 'v' | 'W' => 'w' | 'X' => 'x'
  | 'Y' => 'y' | 'Z' => 'z'
  | c => c

/-- `str.lower()`. -/
def pyLower (s : PyStr) : PyStr := s.map pyCharLower

/-- Leading-whitespace strip (the left half of `str.strip()`). -/
def lstrip (s : PyStr) : PyStr := s.dropWhile isPySpace

/-- Trailing-whitespace strip (the right half of `str.strip()`). -/
def rstrip (s : PyStr) : PyStr := (s.reverse.dropWhile isPySpace).reverse

/-- Python's `str.strip()`. -/
def strip (s : PyStr) : PyStr := rstrip (lstrip s)

/-- Worker for `re.sub(r'\s+', ' ', s)`: the Boolean records whether the
previous character was part of a whitespace run already replaced by `' '`. -/
def collapseAux : Bool → PyStr → PyStr
  | _, [] => []
  | inRun, c :: rest =>
    if isPySpace c then
      if inRun then collapseAux true rest else ' ' :: collapseAux true rest
    else c :: collapseAux false rest

/-- `re.sub(r'\s+', ' ', s)`: collapse every whitespace run to one space. -/
def collapseWs (s : PyStr) : PyStr := collapseAux false s

/-- Does `hay` start with `needle`? (worker for Python's `in` operator). -/
def headMatches : PyStr → PyStr → Bool
  | [], _ => true
  | _ :: _, [] => false
  | a :: as, b :: bs => a == b && headMatches as bs

/-- Python's substring test `needle in hay`. -/
def pyContains : PyStr → PyStr → Bool
  | [], needle => headMatches needle []
  | hay@(_ :: t), needle => headMatches needle hay || pyContains t needle

/-- Python list indexing `l[i]` (negative indices count from the end);
`none` models a raised `IndexError`. -/
def pyGet (l : List α) (i : Int) : Option α :=
  if 0 ≤ i then l.get? i.toNat
  else if -i ≤ (l.length : Int) then l.get? (l.length - (-i).toNat) else none

/-! ## Data model: notebooks, cells, outputs -/

/-- The `output_type` tag of a notebook cell output. -/
inductive OutputKind where
  | stream
  | execute_result
  | display_data
  | error_out
  deriving DecidableEq, Repr

/-- One output of an executed code cell.  For `execute_result` and
`display_data` the payload is the `text/plain` entry of the data bundle when
present (`output.data.get('text/plain', '')`). -/
inductive CellOutput where
  | stream (text : PyStr)
  | execute_result (textPlain : Option PyStr)
  | display_data (textPlain : Option PyStr)
  | error_out
  deriving DecidableEq, Repr

/-- The kind of a notebook cell. -/
inductive CellType where
  | code
  | markdown
  deriving DecidableEq, Repr

/-- A notebook cell: kind, source text, and (for executed code cells) outputs. -/
structure Cell where
  cell_type : CellType
  source : PyStr
  outputs : List CellOutput
  deriving DecidableEq, Repr

/-- A notebook: an ordered list of cells. -/
structure Notebook where
  cells : List Cell
  deriving DecidableEq, Repr

/-- The text payload one output contributes in `get_cell_output`'s loop:
`stream` contributes `output.text`, `execute_result`/`display_data` contribute
`output.data.get('text/plain', '')`, and error outputs are skipped (they
contribute nothing to the concatenation). -/
def outputText : CellOutput → PyStr
  | .stream t => t
  | .execute_result d => d.getD []
  | .display_data d => d.getD []
  | .error_out => []

/-- `''.join(output_text)` over the loop of `get_cell_output`. -/
def joinOutputs : List CellOutput → PyStr
  | [] => []
  | o :: rest => outputText o ++ joinOutputs rest

/-- `get_cell_output(nb, cell_index)`: empty text when `cell_index >= len(nb.cells)`
or the cell is not a code cell; otherwise the concatenated output payloads,
stripped.  Negative indexing below `-len` raises `IndexError`. -/
def get_cell_output (nb : Notebook) (cell_index : Int) : Except PyStr PyStr :=
  if (nb.cells.length : Int) ≤ cell_index then .ok []
  else
    match pyGet nb.cells cell_index with
    | none => .error (pys "list index out of range")
    | some cell =>
      if cell.cell_type = .code then .ok (strip (joinOutputs cell.outputs))
      else .ok []

/-- `get_cell_source(nb, cell_index)`: empty text when
`cell_index >= len(nb.cells)`, otherwise the raw cell source. -/
def get_cell_source (nb : Notebook) (cell_index : Int) : Except PyStr PyStr :=
  if (nb.cells.length : Int) ≤ cell_index then .ok []
  else
    match pyGet nb.cells cell_index with
    | none => .error (pys "list index out of range")
    | some cell => .ok cell.source

/-- `check_output_matches(actual, expected, flexible)`.  Flexible mode lowers,
strips, then collapses whitespace runs on both sides before comparing. -/
def check_output_matches (actual expected : PyStr) (flexible : Bool) : Bool :=
  if flexible then
    collapseWs (strip (pyLower actual)) == collapseWs (strip (pyLower expected))
  else
    strip actual == strip expected

/-- `check_code_contains_ellipsis(source)`:
`'...' in source and not ('"""' in source or "'''" in source)`. -/
def check_code_contains_ellipsis (source : PyStr) : Bool :=
  pyContains source (pys "...") &&
    !(pyContains source (pys "\x22\x22\x22") || pyContains source (pys "\x27\x27\x27"))

/-- `check_essay_answered(nb, cell_index, min_length)`: the answered flag and
the stripped answer text. -/
def check_essay_answered (nb : Notebook) (cell_index : Int) (min_length : Nat) :
    Except PyStr (Bool × PyStr) :=
  if (nb.cells.length : Int) ≤ cell_index then .ok (false, [])
  else
    match pyGet nb.cells cell_index with
    | none => .error (pys "list index out of range")
    | some cell =>
      if cell.cell_type = .markdown then
        let answer := strip cell.source
        if pyContains (pyLower answer) (pys "< your answer >") then .ok (false, answer)
        else if answer.length < min_length then .ok (false, answer)
        else .ok (true, answer)
      else .ok (false, [])

/-! ## Basic linting (`run_basic_linting`) -/

/-- The character class `[a-z]`. -/
def isLowerAZ (c : Char) : Bool := 'a' ≤ c && c ≤ 'z'

/-- The character class `[A-Z]`. -/
def isUpperAZ (c : Char) : Bool := 'A' ≤ c && c ≤ 'Z'

/-- The character class `[a-zA-Z]`. -/
def isLetterAZ (c : Char) : Bool := isLowerAZ c || isUpperAZ c

/-- The character class `[a-zA-Z0-9]`. -/
def isAlnumAZ (c : Char) : Bool := isLetterAZ c || ('0' ≤ c && c ≤ '9')

/-- Python regex `\w` (ASCII fragment), used for the `\b` word boundary. -/
def isWordChar (c : Char) : Bool := isAlnumAZ c || c == '_'

/-- `re.search(r'[a-zA-Z0-9]<mid>[a-zA-Z0-9]', line)` for a fixed middle
character: some alphanumeric character directly followed by `mid` directly
followed by another alphanumeric character. -/
def hasAdjacent (mid : Char) : PyStr → Bool
  | a :: b :: c :: rest =>
    (isAlnumAZ a && b == mid && isAlnumAZ c) || hasAdjacent mid (b :: c :: rest)
  | _ => false

/-- Python `line.replace('==', '')`: remove non-overlapping `==` pairs,
scanning left to right. -/
def pyReplaceEqEq : PyStr → PyStr
  | '=' :: '=' :: rest => pyReplaceEqEq rest
  | c :: rest => c :: pyReplaceEqEq rest
  | [] => []

/-- Match `[a-z]+[A-Z][a-zA-Z]*\s*=` at the head of the string.  The regex's
character classes are pairwise disjoint at each junction, so maximal munch is
exact. -/
def matchCamelAt : PyStr → Bool
  | [] => false
  | c :: rest =>
    if isLowerAZ c then
      match rest.dropWhile isLowerAZ with
      | [] => false
      | d :: r2 =>
        isUpperAZ d &&
          match (r2.dropWhile isLetterAZ).dropWhile isPySpace with
          | '=' :: _ => true
          | _ => false
    else false

/-- Scan for `re.search(r'\b([a-z]+[A-Z][a-zA-Z]*)\s*=', line)`: the Boolean
argument records whether the current position is at a word boundary. -/
def hasVarPatternAux : Bool → PyStr → Bool
  | _, [] => false
  | atB, c :: rest => (atB && matchCamelAt (c :: rest)) || hasVarPatternAux (!isWordChar c) rest

/-- `re.search` of the snake_case lint pattern anywhere in the line. -/
def hasVarPattern (line : PyStr) : Bool := hasVarPatternAux true line

/-- Python `source.split('\n')`. -/
def splitNl : PyStr → List PyStr
  | [] => [[]]
  | c :: rest =>
    if c == '\n' then [] :: splitNl rest
    else
      match splitNl rest with
      | [] => [[c]]
      | h :: t => (c :: h) :: t

/-- Decimal rendering of a `Nat`, for the f-string line messages. -/
def natStr (n : Nat) : PyStr := (Nat.repr n).toList

/-- `line.strip().startswith('#')`. -/
def startsWithHash : PyStr → Bool
  | '#' :: _ => true
  | _ => false

/-- The lint suggestions one line contributes, in source order: the long-line
check, the operator-spacing check, and the snake_case check. -/
def lintLine (i : Nat) (line : PyStr) : List PyStr :=
  if (strip line).isEmpty || startsWithHash (strip line) then []
  else
    (if 100 < line.length then
      [pys "Line " ++ natStr i ++ pys " is very long (" ++ natStr line.length ++
        pys " chars). Consider breaking it up."]
     else []) ++
    (if (hasAdjacent '+' line || hasAdjacent '=' (pyReplaceEqEq line)) &&
        !pyContains line (pys "==") then
      [pys "Line " ++ natStr i ++ pys ": Consider adding spaces around operators for readability."]
     else []) ++
    (if hasVarPattern line then
      [pys "Line " ++ natStr i ++ pys ": Consider using snake_case for variable names (e.g., my_variable)."]
     else [])

/-- Number the elements of a list starting from `n` (Python `enumerate(l, n)`). -/
def enumFrom (n : Nat) : List α → List (Nat × α)
  | [] => []
  | a :: rest => (n, a) :: enumFrom (n + 1) rest

/-- `run_basic_linting(source)`: per-line suggestions, capped at three. -/
def run_basic_linting (source : PyStr) : List PyStr :=
  (((enumFrom 1 (splitNl source)).map (fun p => lintLine p.1 p.2)).flatten).take 3

/-! ## Question configuration and grading results -/

/-- `question_config['type']`. -/
inductive QType where
  | code
  | essay
  deriving DecidableEq, Repr

/-- A configured question: type, 0-based cell index, acceptable output
variants (code questions only), and points. -/
structure QuestionConfig where
  qtype : QType
  cell_index : Int
  expected_outputs : List PyStr
  points : Nat
  deriving DecidableEq, Repr

/-- One question's grading outcome. -/
structure QuestionResult where
  passed : Bool
  score : Nat
  max_score : Nat
  feedback : List PyStr
  deriving DecidableEq, Repr

/-- The result of grading one notebook. -/
structure NotebookResult where
  notebook : String
  executed : Bool
  questions : List (String × QuestionResult)
  overall_score : Nat
  max_score : Nat
  errors : List PyStr
  deriving DecidableEq, Repr

/-- The lint feedback block appended after output comparison: a header plus
the suggestions, or nothing when there are none. -/
def lintBlock (source : PyStr) : List PyStr :=
  let ls := run_basic_linting source
  if ls.isEmpty then [] else pys "Code quality suggestions:" :: ls

/-- The body of `test_notebook`'s per-question loop: grade one question, or
surface the Python exception (`IndexError`) the loop body would raise. -/
def gradeQuestion (nb : Notebook) (qc : QuestionConfig) : Except PyStr QuestionResult :=
  match qc.qtype with
  | .code =>
    match get_cell_source nb qc.cell_index with
    | .error e => .error e
    | .ok source =>
      if check_code_contains_ellipsis source then
        .ok ⟨false, 0, qc.points, [pys "Code still contains \x27...\x27 placeholder"]⟩
      else
        match get_cell_output nb qc.cell_index with
        | .error e => .error e
        | .ok output =>
          if qc.expected_outputs.any (fun expected => check_output_matches output expected true) then
            .ok ⟨true, qc.points, qc.points, pys "✓ Correct output" :: lintBlock source⟩
          else
            match qc.expected_outputs with
            | [] => .error (pys "list index out of range")
            | e0 :: _ =>
              .ok ⟨false, 0, qc.points,
                (pys "Expected output like: " ++ e0.take 50 ++ pys "...") ::
                (pys "Got: " ++ output.take 50 ++ pys "...") :: lintBlock source⟩
  | .essay =>
    match check_essay_answered nb qc.cell_index 20 with
    | .error e => .error e
    | .ok (answered, _) =>
      if answered then
        .ok ⟨true, qc.points, qc.points, [pys "✓ Answer provided (requires manual review)"]⟩
      else
        .ok ⟨false, 0, qc.points, [pys "No answer provided or too short"]⟩

/-- The accumulated state of `test_notebook`'s question loop. -/
structure LoopState where
  questions : List (String × QuestionResult)
  overall_score : Nat
  max_score : Nat
  errors : List PyStr
  deriving DecidableEq, Repr

/-- `test_notebook`'s question loop.  `max_score` is incremented before a
question is graded, so a raised exception (caught at the notebook boundary)
leaves the current and all later questions unscored while the aborted
question's points are already counted. -/
def runQuestions (nb : Notebook) : List (String × QuestionConfig) → LoopState
  | [] => ⟨[], 0, 0, []⟩
  | (qid, qc) :: rest =>
    match gradeQuestion nb qc with
    | .error e => ⟨[], 0, qc.points, [e]⟩
    | .ok qr =>
      let s := runQuestions nb rest
      ⟨(qid, qr) :: s.questions, qr.score + s.overall_score, qc.points + s.max_score, s.errors⟩

/-- `execute_notebook`: the kernel run itself is external I/O, so its raw
outcome (an executed notebook, or the message of the raised exception) is a
parameter; the function wraps a failure in the descriptive
`Error executing <name>: <msg>` exception, as the source does. -/
def execute_notebook (name : String) (rawOutcome : Except PyStr Notebook) :
    Except PyStr Notebook :=
  match rawOutcome with
  | .ok nb => .ok nb
  | .error e => .error (pys "Error executing " ++ pys name ++ pys ": " ++ e)

/-- `test_notebook(notebook_path, test_config)`: execute, then grade each
configured question; any exception is caught and recorded in `errors`. -/
def test_notebook (name : String) (rawOutcome : Except PyStr Notebook)
    (questions : List (String × QuestionConfig)) : NotebookResult :=
  match execute_notebook name rawOutcome with
  | .error e => ⟨name, false, [], 0, 0, [e]⟩
  | .ok nb =>
    let s := runQuestions nb questions
    ⟨name, true, s.questions, s.overall_score, s.max_score, s.errors⟩

/-! ## Commit analysis (`analyze_commits`) -/

/-- The fixed generic-message list of `analyze_commits`. -/
def genericWords : List PyStr :=
  [pys "update", pys "done", pys "fix", pys "wip", pys "change", pys "commit", pys "save"]

/-- One iteration of the message-quality loop: a message counts when its
stripped length is at least 10 and its lowered, stripped form is not generic. -/
def isDescriptive (msg : PyStr) : Bool :=
  let is_generic := genericWords.contains (strip (pyLower msg))
  let is_long_enough := 10 ≤ (strip msg).length
  is_long_enough && !is_generic

/-- The `descriptive_count` accumulation loop. -/
def countDescriptive (messages : List PyStr) : Nat :=
  messages.foldl (fun acc msg => if isDescriptive msg then acc + 1 else acc) 0

/-- The result dictionary of `analyze_commits`.  `descriptive_ratio` is a
Python float computed by exact division here modelled in `ℚ`; `error` is the
extra key present only on failure. -/
structure CommitAnalysis where
  commit_count : Nat
  meets_minimum : Bool
  descriptive_count : Nat
  descriptive_ratio : ℚ
  messages : List PyStr
  error : Option PyStr
  deriving DecidableEq, Repr

/-- `analyze_commits(repo_path, min_commits)`.  The two read-only git queries
are external process calls; their joint outcome is a parameter: either a
`CalledProcessError` message, or the commit count together with the raw stdout
of `git log --pretty=format:%s`. -/
def analyze_commits (query : Except PyStr (Nat × PyStr)) (min_commits : Nat) :
    CommitAnalysis :=
  match query with
  | .error e => ⟨0, false, 0, 0, [], some e⟩
  | .ok (commit_count, logStdout) =>
    let messages := splitNl (strip logStdout)
    let descriptive_count := countDescriptive messages
    ⟨commit_count, min_commits ≤ commit_count, descriptive_count,
      if 0 < commit_count then (descriptive_count : ℚ) / (commit_count : ℚ) else 0,
      messages, none⟩

/-! ## Normalization lemmas for flexible matching -/

theorem isPySpace_pyCharLower (c : Char) : isPySpace (pyCharLower c) = isPySpace c := by
  unfold pyCharLower
  split <;> rfl

theorem pyCharLower_space : pyCharLower ' ' = ' ' := rfl

theorem pyLower_cons (c : Char) (s : PyStr) :
    pyLower (c :: s) = pyCharLower c :: pyLower s := rfl

theorem collapseAux_cons (b : Bool) (c : Char) (rest : PyStr) :
    collapseAux b (c :: rest) =
      if isPySpace c then
        (if b then collapseAux true rest else ' ' :: collapseAux true rest)
      else c :: collapseAux false rest := rfl

theorem isPySpace_comp_pyCharLower : (isPySpace ∘ pyCharLower) = isPySpace :=
  funext isPySpace_pyCharLower

theorem pyLower_collapseAux (b : Bool) (s : PyStr) :
    pyLower (collapseAux b s) = collapseAux b (pyLower s) := by
  induction s generalizing b with
  | nil => rfl
  | cons c rest ih =>
    have hc : isPySpace (pyCharLower c) = isPySpace c := isPySpace_pyCharLower c
    by_cases h : isPySpace c = true
    · cases b <;>
        simp [collapseAux_cons, pyLower_cons, h, hc, pyCharLower_space, ih]
    · simp [collapseAux_cons, pyLower_cons, h, hc, ih]

theorem lstrip_pyLower (s : PyStr) : lstrip (pyLower s) = pyLower (lstrip s) := by
  unfold lstrip pyLower
  rw [List.dropWhile_map, isPySpace_comp_pyCharLower]

theorem rstrip_pyLower (s : PyStr) : rstrip (pyLower s) = pyLower (rstrip s) := by
  unfold rstrip pyLower
  rw [← List.map_reverse, List.dropWhile_map, isPySpace_comp_pyCharLower, List.map_reverse]

theorem strip_pyLower (s : PyStr) : strip (pyLower s) = pyLower (strip s) := by
  unfold strip
  rw [lstrip_pyLower, rstrip_pyLower]

theorem rstrip_eq_rdropWhile (l : PyStr) : rstrip l = List.rdropWhile isPySpace l := rfl

theorem rstrip_eq_nil_iff (l : PyStr) : rstrip l = [] ↔ ∀ c ∈ l, isPySpace c = true := by
  rw [rstrip_eq_rdropWhile]
  exact List.rdropWhile_eq_nil_iff

theorem rstrip_idem (l : PyStr) : rstrip (rstrip l) = rstrip l := by
  rw [rstrip_eq_rdropWhile, rstrip_eq_rdropWhile]
  exact List.rdropWhile_idempotent _ _

theorem rstrip_cons (c : Char) (l : PyStr) :
    rstrip (c :: l) =
      if rstrip l = [] then (if isPySpace c then [] else [c]) else c :: rstrip l := by
  unfold rstrip
  rw [List.reverse_cons, List.dropWhile_append]
  by_cases h : l.reverse.dropWhile isPySpace = []
  · rw [h]
    simp only [List.isEmpty_nil, if_true, List.reverse_eq_nil_iff, List.dropWhile]
    cases hc : isPySpace c <;> simp
  · have h2 : (l.reverse.dropWhile isPySpace).isEmpty = false := by
      simpa [List.isEmpty_iff] using h
    rw [h2]
    simp only [Bool.false_eq_true, if_false, List.reverse_append, List.reverse_cons,
      List.reverse_nil, List.nil_append, List.singleton_append]
    rw [if_neg]
    simpa [List.reverse_eq_nil_iff] using h

theorem collapseAux_true_eq_nil (s : PyStr) :
    collapseAux true s = [] ↔ ∀ c ∈ s, isPySpace c = true := by
  induction s with
  | nil => simp [collapseAux]
  | cons c rest ih =>
    by_cases h : isPySpace c = true <;> simp [collapseAux, h, ih]

theorem collapseAux_false_eq_nil (s : PyStr) : collapseAux false s = [] ↔ s = [] := by
  cases s with
  | nil => simp [collapseAux]
  | cons c rest => by_cases h : isPySpace c = true <;> simp [collapseAux, h]

theorem isPySpace_space : isPySpace ' ' = true := rfl

theorem lstrip_cons (c : Char) (l : PyStr) :
    lstrip (c :: l) = if isPySpace c then lstrip l else c :: l := by
  unfold lstrip
  rw [List.dropWhile_cons]

theorem lstrip_collapseAux (b : Bool) (s : PyStr) :
    lstrip (collapseAux b s) = collapseAux false (lstrip s) := by
  induction s generalizing b with
  | nil => rfl
  | cons c rest ih =>
    by_cases h : isPySpace c = true
    · cases b <;> simp [collapseAux_cons, lstrip_cons, h, isPySpace_space, ih]
    · simp [collapseAux_cons, lstrip_cons, h]

theorem rstrip_collapseAux (b : Bool) (s : PyStr) :
    rstrip (collapseAux b s) = collapseAux b (rstrip s) := by
  induction s generalizing b with
  | nil => cases b <;> rfl
  | cons c rest ih =>
    by_cases h : isPySpace c = true
    · cases b with
      | true =>
        rw [show collapseAux true (c :: rest) = collapseAux true rest by simp [collapseAux, h],
          ih, rstrip_cons]
        by_cases hr : rstrip rest = []
        · simp [hr, h, collapseAux]
        · simp [hr, collapseAux, h]
      | false =>
        rw [show collapseAux false (c :: rest) = ' ' :: collapseAux true rest by
            simp [collapseAux, h],
          rstrip_cons, rstrip_cons]
        by_cases hr : rstrip (collapseAux true rest) = []
        · rw [if_pos hr]
          have hall : ∀ x ∈ rstrip rest, isPySpace x = true := by
            rw [ih] at hr
            exact (collapseAux_true_eq_nil _).1 hr
          have hnil : rstrip rest = [] := by
            rw [← rstrip_idem]
            exact (rstrip_eq_nil_iff _).2 hall
          simp [hnil, h, collapseAux, isPySpace_space]
        · rw [if_neg hr, ih]
          have hrr : rstrip rest ≠ [] := by
            intro hcon
            rw [ih, hcon] at hr
            exact hr rfl
          simp [hrr, collapseAux, h, ih]
    · rw [show collapseAux b (c :: rest) = c :: collapseAux false rest by
          cases b <;> simp [collapseAux, h],
        rstrip_cons, rstrip_cons]
      by_cases hr : rstrip (collapseAux false rest) = []
      · rw [if_pos hr]
        have hnil : rstrip rest = [] := by
          rw [ih] at hr
          rcases (collapseAux_false_eq_nil _).1 hr with h0
          simp [h0]
        simp [hnil, h, collapseAux]
      · rw [if_neg hr, ih]
        have hrr : rstrip rest ≠ [] := by
          intro hcon
          rw [ih, hcon] at hr
          exact hr rfl
        cases b <;> simp [hrr, collapseAux, h, ih]

theorem strip_collapseWs (s : PyStr) : strip (collapseWs s) = collapseWs (strip s) := by
  unfold strip collapseWs
  rw [lstrip_collapseAux, rstrip_collapseAux]

/-- The normalization in the order the specification words it: collapse every
whitespace run to a single space, lowercase, then trim. -/
def specNormalize (s : PyStr) : PyStr := strip (pyLower (collapseWs s))

theorem specNormalize_eq (s : PyStr) :
    specNormalize s = collapseWs (strip (pyLower s)) := by
  unfold specNormalize
  rw [show pyLower (collapseWs s) = collapseWs (pyLower s) from pyLower_collapseAux false s,
    strip_collapseWs]

/-- C2: `check_output_matches(actual, expected, flexible=true)` returns true
exactly when collapsing every whitespace run to a single space, lowercasing,
and trimming both strings yields equal strings.  In particular two texts
differing only in whitespace runs and letter case match, and two texts whose
normalized forms differ in any other character do not. -/
theorem claim_C2_flexible_match (a e : PyStr) :
    check_output_matches a e true = true ↔ specNormalize a = specNormalize e := by
  unfold check_output_matches
  rw [if_pos rfl, specNormalize_eq, specNormalize_eq]
  exact beq_iff_eq

/-! ## Substring-test correctness (for the ellipsis and essay checks) -/

theorem headMatches_iff (needle hay : PyStr) :
    headMatches needle hay = true ↔ ∃ t, hay = needle ++ t := by
  induction needle generalizing hay with
  | nil => simp [headMatches]
  | cons a as ih =>
    cases hay with
    | nil => simp [headMatches]
    | cons b bs =>
      simp only [headMatches, Bool.and_eq_true, beq_iff_eq, ih, List.cons_append,
        List.cons_eq_cons]
      constructor
      · rintro ⟨rfl, t, rfl⟩
        exact ⟨t, rfl, rfl⟩
      · rintro ⟨t, rfl, rfl⟩
        exact ⟨rfl, t, rfl⟩

theorem pyContains_iff (hay needle : PyStr) :
    pyContains hay needle = true ↔ ∃ s t, hay = s ++ needle ++ t := by
  induction hay with
  | nil =>
    simp only [pyContains, headMatches_iff]
    constructor
    · rintro ⟨t, ht⟩
      exact ⟨[], t, by simpa using ht⟩
    · rintro ⟨s, t, h⟩
      rcases List.append_eq_nil.1 h.symm with ⟨h1, h2⟩
      rcases List.append_eq_nil.1 h1 with ⟨rfl, rfl⟩
      exact ⟨[], by simp⟩
  | cons c rest ih =>
    simp only [pyContains, Bool.or_eq_true, headMatches_iff, ih]
    constructor
    · rintro (⟨t, ht⟩ | ⟨s, t, h⟩)
      · exact ⟨[], t, by simpa using ht⟩
      · exact ⟨c :: s, t, by simp [h]⟩
    · rintro ⟨s, t, h⟩
      cases s with
      | nil => exact Or.inl ⟨t, by simpa using h⟩
      | cons x xs =>
        simp only [List.cons_append, List.cons_eq_cons] at h
        exact Or.inr ⟨xs, t, h.2⟩

theorem pyContains_eq_false_iff (hay needle : PyStr) :
    pyContains hay needle = false ↔ ¬ ∃ s t, hay = s ++ needle ++ t := by
  rw [← pyContains_iff hay needle]
  exact ⟨fun h => by simp [h], fun h => by simpa using h⟩

/-- C4: `check_code_contains_ellipsis(source)` holds exactly when `source`
contains the literal `...` token and neither triple-quote delimiter; and a
code question whose cell source satisfies it is graded `score = 0` with the
unreplaced-placeholder feedback, independent of the cell output and of the
expected-output set (no output comparison is reached). -/
theorem claim_C4_ellipsis :
    (∀ source : PyStr,
      check_code_contains_ellipsis source = true ↔
        ((∃ s t, source = s ++ pys "..." ++ t) ∧
          ¬ (∃ s t, source = s ++ pys "\x22\x22\x22" ++ t) ∧
          ¬ (∃ s t, source = s ++ pys "\x27\x27\x27" ++ t))) ∧
    (∀ (nb : Notebook) (qc : QuestionConfig) (src : PyStr),
      qc.qtype = .code →
      get_cell_source nb qc.cell_index = .ok src →
      check_code_contains_ellipsis src = true →
      gradeQuestion nb qc =
        .ok ⟨false, 0, qc.points, [pys "Code still contains \x27...\x27 placeholder"]⟩) := by
  constructor
  · intro source
    unfold check_code_contains_ellipsis
    rw [Bool.and_eq_true, pyContains_iff, Bool.not_eq_true', Bool.or_eq_false_iff,
      pyContains_eq_false_iff, pyContains_eq_false_iff]
  · intro nb qc src hty hsrc hell
    obtain ⟨ty, idx, eo, pts⟩ := qc
    have hty' : ty = .code := hty
    subst hty'
    simp only [gradeQuestion] at hsrc ⊢
    simp [hsrc, hell]

theorem pyGet_eq_none_of_le {l : List α} {i : Int} (h : (l.length : Int) ≤ i) :
    pyGet l i = none := by
  unfold pyGet
  rw [if_pos (le_trans (Int.natCast_nonneg _) h)]
  refine List.get?_eq_none.2 ?_
  omega

/-- C5: `check_essay_answered` reports answered exactly when the indexed cell
exists, is markdown, its trimmed source avoids the case-insensitive
`< your answer >` placeholder, and the trimmed source has at least 20
characters; an answered essay question scores full points with
manual-review feedback, a non-answered one scores 0. -/
theorem claim_C5_essay :
    (∀ (nb : Notebook) (i : Int),
      (∃ ans, check_essay_answered nb i 20 = .ok (true, ans)) ↔
        ∃ cell, pyGet nb.cells i = some cell ∧ cell.cell_type = .markdown ∧
          pyContains (pyLower (strip cell.source)) (pys "< your answer >") = false ∧
          20 ≤ (strip cell.source).length) ∧
    (∀ (nb : Notebook) (qc : QuestionConfig) (b : Bool) (ans : PyStr),
      qc.qtype = .essay →
      check_essay_answered nb qc.cell_index 20 = .ok (b, ans) →
      gradeQuestion nb qc = .ok
        (if b then ⟨true, qc.points, qc.points, [pys "✓ Answer provided (requires manual review)"]⟩
         else ⟨false, 0, qc.points, [pys "No answer provided or too short"]⟩)) := by
  constructor
  · intro nb i
    by_cases hge : (nb.cells.length : Int) ≤ i
    · simp [check_essay_answered, hge, pyGet_eq_none_of_le hge]
    · cases hpg : pyGet nb.cells i with
      | none => simp [check_essay_answered, hge, hpg]
      | some cell =>
        by_cases hmd : cell.cell_type = .markdown
        · by_cases hph : pyContains (pyLower (strip cell.source)) (pys "< your answer >") = true
          · simp [check_essay_answered, hge, hpg, hmd, hph]
          · by_cases hlen : (strip cell.source).length < 20
            · simp only [check_essay_answered, hge, hpg, hmd, hph, hlen]
              simp [hmd, hph]
              omega
            · simp only [check_essay_answered, hge, hpg, hmd, hph, hlen]
              simp [hmd, hph]
              omega
        · simp [check_essay_answered, hge, hpg, hmd]
  · intro nb qc b ans hty hch
    obtain ⟨ty, idx, eo, pts⟩ := qc
    have hty' : ty = .essay := hty
    subst hty'
    simp only [gradeQuestion] at hch ⊢
    rw [hch]
    cases b <;> simp

theorem joinOutputs_eq (l : List CellOutput) :
    joinOutputs l = (l.map outputText).flatten := by
  induction l with
  | nil => rfl
  | cons o rest ih => simp [joinOutputs, ih]

/-- C6 (amended): `get_cell_source` and `get_cell_output` return empty text
for every index at or above the cell count; an index resolvable by Python
list indexing (negative indices count from the end) returns the raw source,
resp. the stripped concatenation of the non-error output payloads of a code
cell and empty text for a non-code cell; an index below `-len(cells)` raises
`IndexError` instead of returning empty text. -/
theorem claim_C6_extractor (nb : Notebook) (i : Int) :
    ((nb.cells.length : Int) ≤ i →
      get_cell_source nb i = .ok [] ∧ get_cell_output nb i = .ok []) ∧
    (i < -(nb.cells.length : Int) →
      get_cell_source nb i = .error (pys "list index out of range") ∧
      get_cell_output nb i = .error (pys "list index out of range")) ∧
    (∀ cell, pyGet nb.cells i = some cell →
      get_cell_source nb i = .ok cell.source ∧
      get_cell_output nb i = .ok
        (if cell.cell_type = .code then strip ((cell.outputs.map outputText).flatten)
         else [])) := by
  refine ⟨fun hge => ?_, fun hlt => ?_, fun cell hpg => ?_⟩
  · unfold get_cell_source get_cell_output
    rw [if_pos hge, if_pos hge]
    exact ⟨rfl, rfl⟩
  · have hge : ¬ (nb.cells.length : Int) ≤ i := by omega
    have hnone : pyGet nb.cells i = none := by
      unfold pyGet
      rw [if_neg (by omega), if_neg (by omega)]
    unfold get_cell_source get_cell_output
    rw [if_neg hge, if_neg hge, hnone]
    exact ⟨rfl, rfl⟩
  · have hge : ¬ (nb.cells.length : Int) ≤ i := by
      intro hge
      rw [pyGet_eq_none_of_le hge] at hpg
      cases hpg
    unfold get_cell_source get_cell_output
    rw [if_neg hge, if_neg hge, hpg]
    refine ⟨rfl, ?_⟩
    by_cases hc : cell.cell_type = .code
    · simp [hc, joinOutputs_eq]
    · simp [hc]

/-- C7: when notebook execution fails (error or timeout), the result has
`executed = false`, an empty question map, `overall_score = 0`, and a single
error naming the notebook. -/
theorem claim_C7_execution_failure (name : String) (e : PyStr)
    (cfg : List (String × QuestionConfig)) :
    test_notebook name (.error e) cfg =
      ⟨name, false, [], 0, 0, [pys "Error executing " ++ pys name ++ pys ": " ++ e]⟩ ∧
    (test_notebook name (.error e) cfg).errors.length = 1 ∧
    ∃ p q, pys "Error executing " ++ pys name ++ pys ": " ++ e = p ++ pys name ++ q := by
  refine ⟨rfl, rfl, pys "Error executing ", pys ": " ++ e, by simp⟩

/-- C9: when a version-control query fails (`CalledProcessError`), commit
analysis returns the zero-valued result with the error string attached,
propagating no exception. -/
theorem claim_C9_commit_query_failure (e : PyStr) (min_commits : Nat) :
    analyze_commits (.error e) min_commits = ⟨0, false, 0, 0, [], some e⟩ := rfl

/-! ## Structure of graded question results -/

theorem gradeQuestion_ok_shape (nb : Notebook) (qc : QuestionConfig) (qr : QuestionResult)
    (h : gradeQuestion nb qc = .ok qr) :
    qr.max_score = qc.points ∧
      ((qr.passed = false ∧ qr.score = 0) ∨ (qr.passed = true ∧ qr.score = qc.points)) := by
  obtain ⟨ty, idx, eo, pts⟩ := qc
  cases ty <;> simp only [gradeQuestion] at h
  case code =>
    cases hsrc : get_cell_source nb idx with
    | error e => simp [hsrc] at h
    | ok source =>
      simp only [hsrc] at h
      by_cases hell : check_code_contains_ellipsis source = true
      · rw [if_pos hell] at h
        cases h
        exact ⟨rfl, Or.inl ⟨rfl, rfl⟩⟩
      · rw [if_neg hell] at h
        cases hout : get_cell_output nb idx with
        | error e => simp [hout] at h
        | ok output =>
          simp only [hout] at h
          by_cases hm : (eo.any fun expected => check_output_matches output expected true) = true
          · rw [if_pos hm] at h
            cases h
            exact ⟨rfl, Or.inr ⟨rfl, rfl⟩⟩
          · rw [if_neg hm] at h
            cases eo with
            | nil => simp at h
            | cons e0 es =>
              cases h
              exact ⟨rfl, Or.inl ⟨rfl, rfl⟩⟩
  case essay =>
    cases hch : check_essay_answered nb idx 20 with
    | error e => simp [hch] at h
    | ok pr =>
      obtain ⟨b, ans⟩ := pr
      simp only [hch] at h
      cases b
      · rw [if_neg (by simp)] at h
        cases h
        exact ⟨rfl, Or.inl ⟨rfl, rfl⟩⟩
      · rw [if_pos rfl] at h
        cases h
        exact ⟨rfl, Or.inr ⟨rfl, rfl⟩⟩

/-- Total configured points of a question list. -/
def sumPoints (cfg : List (String × QuestionConfig)) : Nat :=
  (cfg.map (fun q => q.2.points)).sum

theorem runQuestions_cons_ok (nb : Notebook) (qid : String) (qc : QuestionConfig)
    (rest : List (String × QuestionConfig)) (qr : QuestionResult)
    (h : gradeQuestion nb qc = .ok qr) :
    runQuestions nb ((qid, qc) :: rest) =
      ⟨(qid, qr) :: (runQuestions nb rest).questions,
       qr.score + (runQuestions nb rest).overall_score,
       qc.points + (runQuestions nb rest).max_score,
       (runQuestions nb rest).errors⟩ := by
  simp [runQuestions, h]

theorem runQuestions_invariants (nb : Notebook) (cfg : List (String × QuestionConfig)) :
    (runQuestions nb cfg).overall_score
        = ((runQuestions nb cfg).questions.map (fun q => q.2.score)).sum ∧
    (∀ q ∈ (runQuestions nb cfg).questions,
        ∃ qc, (q.1, qc) ∈ cfg ∧ gradeQuestion nb qc = .ok q.2) ∧
    (runQuestions nb cfg).overall_score ≤ (runQuestions nb cfg).max_score ∧
    ((runQuestions nb cfg).errors = [] → (runQuestions nb cfg).max_score = sumPoints cfg) := by
  induction cfg with
  | nil => simp [runQuestions, sumPoints]
  | cons hd rest ih =>
    obtain ⟨qid, qc⟩ := hd
    cases hg : gradeQuestion nb qc with
    | error e =>
      simp [runQuestions, hg, sumPoints]
    | ok qr =>
      obtain ⟨h1, h2, h3, h4⟩ := ih
      have hsh := gradeQuestion_ok_shape nb qc qr hg
      rw [runQuestions_cons_ok nb qid qc rest qr hg]
      refine ⟨?_, ?_, ?_, ?_⟩
      · simpa using h1
      · rintro q hq
        rcases List.mem_cons.1 hq with rfl | hq'
        · exact ⟨qc, List.mem_cons_self _ _, hg⟩
        · obtain ⟨qc', hmem, hok⟩ := h2 q hq'
          exact ⟨qc', List.mem_cons_of_mem _ hmem, hok⟩
      · have hle : qr.score ≤ qc.points := by
          rcases hsh.2 with ⟨_, h0⟩ | ⟨_, hp⟩
          · simp [h0]
          · simp [hp]
        exact Nat.add_le_add hle h3
      · intro herr
        have herr' : (runQuestions nb rest).errors = [] := herr
        have := h4 herr'
        simp [sumPoints] at this ⊢
        omega

/-- A small executed notebook used to instantiate theorems with hypotheses:
one code cell printing `1`, one markdown essay answer of 31 characters. -/
def sampleNb : Notebook :=
  ⟨[⟨.code, pys "print(1)", [.stream (pys "1")]⟩,
    ⟨.markdown, pys "A reasonably long essay answer.", []⟩]⟩

/-- A question configuration for `sampleNb`: a 2-point code question and a
3-point essay question. -/
def sampleCfg : List (String × QuestionConfig) :=
  [("Q1", ⟨.code, 0, [pys "1"], 2⟩), ("Q2", ⟨.essay, 1, [], 3⟩)]

/-- C1 counterexample: on a run whose execution fails, `max_score` is 0 while
the configured questions' points sum to 2, so `max_score` does not equal the
sum of the points of all configured questions. -/
theorem claim_C1_counterexample :
    (test_notebook "nb" (.error (pys "boom"))
        [("Q1", ⟨.code, 0, [pys "x"], 2⟩)]).max_score ≠
      sumPoints [("Q1", ⟨.code, 0, [pys "x"], 2⟩)] := by
  decide

/-- C1 (amended): in every grading run, `overall_score` equals the sum of the
scores recorded in the question map, each recorded question's score is at most
its configured points (with `max_score` set to those points), and
`overall_score` never exceeds `max_score`; `max_score` equals the sum of the
points of all configured questions whenever the notebook executed and no
question aborted (it is 0 on a failed execution, and stops at the aborted
question otherwise). -/
theorem claim_C1_amended (name : String) (rawOutcome : Except PyStr Notebook)
    (cfg : List (String × QuestionConfig)) :
    (test_notebook name rawOutcome cfg).overall_score
        = ((test_notebook name rawOutcome cfg).questions.map (fun q => q.2.score)).sum ∧
    (∀ q ∈ (test_notebook name rawOutcome cfg).questions,
        ∃ qc, (q.1, qc) ∈ cfg ∧ q.2.max_score = qc.points ∧ q.2.score ≤ qc.points) ∧
    (test_notebook name rawOutcome cfg).overall_score
        ≤ (test_notebook name rawOutcome cfg).max_score ∧
    ((test_notebook name rawOutcome cfg).executed = true →
      (test_notebook name rawOutcome cfg).errors = [] →
      (test_notebook name rawOutcome cfg).max_score = sumPoints cfg) := by
  cases rawOutcome with
  | error e => simp [test_notebook, execute_notebook]
  | ok nb =>
    obtain ⟨h1, h2, h3, h4⟩ := runQuestions_invariants nb cfg
    simp only [test_notebook, execute_notebook]
    refine ⟨h1, ?_, h3, fun _ herr => h4 herr⟩
    intro q hq
    obtain ⟨qc, hmem, hok⟩ := h2 q hq
    have hsh := gradeQuestion_ok_shape nb qc q.2 hok
    refine ⟨qc, hmem, hsh.1, ?_⟩
    rcases hsh.2 with ⟨_, h0⟩ | ⟨_, hp⟩
    · simp [h0]
    · simp [hp]

/-- C1 witness: the amended invariant evaluated on a successful concrete run:
`max_score` equals the configured 5 points. -/
theorem claim_C1_witness :
    (test_notebook "nb" (.ok sampleNb) sampleCfg).max_score = sumPoints sampleCfg :=
  (claim_C1_amended "nb" (.ok sampleNb) sampleCfg).2.2.2 (by decide) (by decide)

/-- C10: on every grading run whose configured questions carry positive
points, each recorded question scores exactly 0 or exactly its full points
(never a strictly intermediate value), and `passed` holds exactly when the
score equals the full points. -/
theorem claim_C10_no_partial_credit (name : String) (rawOutcome : Except PyStr Notebook)
    (cfg : List (String × QuestionConfig))
    (hpos : ∀ q ∈ cfg, 0 < q.2.points) :
    ∀ q ∈ (test_notebook name rawOutcome cfg).questions,
      (q.2.score = 0 ∨ q.2.score = q.2.max_score) ∧
      (q.2.passed = true ↔ q.2.score = q.2.max_score) := by
  intro q hq
  cases rawOutcome with
  | error e => simp [test_notebook, execute_notebook] at hq
  | ok nb =>
    simp only [test_notebook, execute_notebook] at hq
    obtain ⟨qc, hmem, hok⟩ := (runQuestions_invariants nb cfg).2.1 q hq
    have hsh := gradeQuestion_ok_shape nb qc q.2 hok
    have hp : 0 < qc.points := hpos (q.1, qc) hmem
    rcases hsh.2 with ⟨hpass, h0⟩ | ⟨hpass, hs⟩
    · have hne : ¬ ((0 : Nat) = qc.points) := by omega
      refine ⟨Or.inl h0, ?_⟩
      simp [hpass, h0, hsh.1, hne]
    · refine ⟨Or.inr (by rw [hs, hsh.1]), ?_⟩
      simp [hpass, hs, hsh.1]

/-- C10 witness: the no-partial-credit property evaluated at the code question
of the concrete sample run. -/
theorem claim_C10_witness :
    ((("Q1", ⟨true, 2, 2, [pys "✓ Correct output"]⟩) : String × QuestionResult).2.score = 0 ∨
      (("Q1", (⟨true, 2, 2, [pys "✓ Correct output"]⟩ : QuestionResult))).2.score
        = (("Q1", (⟨true, 2, 2, [pys "✓ Correct output"]⟩ : QuestionResult))).2.max_score) ∧
    ((("Q1", (⟨true, 2, 2, [pys "✓ Correct output"]⟩ : QuestionResult))).2.passed = true ↔
      (("Q1", (⟨true, 2, 2, [pys "✓ Correct output"]⟩ : QuestionResult))).2.score
        = (("Q1", (⟨true, 2, 2, [pys "✓ Correct output"]⟩ : QuestionResult))).2.max_score) :=
  claim_C10_no_partial_credit "nb" (.ok sampleNb) sampleCfg (by decide)
    ("Q1", ⟨true, 2, 2, [pys "✓ Correct output"]⟩) (by decide)

theorem get_cell_output_ok_of_source_ok (nb : Notebook) (i : Int) (src : PyStr)
    (h : get_cell_source nb i = .ok src) : ∃ out, get_cell_output nb i = .ok out := by
  by_cases hge : (nb.cells.length : Int) ≤ i
  · exact ⟨[], by unfold get_cell_output; rw [if_pos hge]⟩
  · cases hpg : pyGet nb.cells i with
    | none =>
      exfalso
      unfold get_cell_source at h
      rw [if_neg hge] at h
      simp [hpg] at h
    | some cell =>
      refine ⟨if cell.cell_type = .code then strip (joinOutputs cell.outputs) else [], ?_⟩
      unfold get_cell_output
      rw [if_neg hge]
      by_cases hc : cell.cell_type = .code <;> simp [hpg, hc]

/-- C3 counterexample: a code question with an *empty* expected-outputs set
whose (non-placeholder) cell output therefore matches no element raises
`IndexError` while building the mismatch feedback: the notebook executed, yet
the question map stays empty — the subsequent question is never scored — and
the exception is recorded at the notebook boundary. -/
theorem claim_C3_counterexample :
    (test_notebook "nb" (.ok ⟨[⟨.code, pys "print(1)", [.stream (pys "1")]⟩]⟩)
        [("Q1", ⟨.code, 0, [], 1⟩), ("Q2", ⟨.code, 0, [pys "1"], 1⟩)]).executed = true ∧
    (test_notebook "nb" (.ok ⟨[⟨.code, pys "print(1)", [.stream (pys "1")]⟩]⟩)
        [("Q1", ⟨.code, 0, [], 1⟩), ("Q2", ⟨.code, 0, [pys "1"], 1⟩)]).questions = [] ∧
    (test_notebook "nb" (.ok ⟨[⟨.code, pys "print(1)", [.stream (pys "1")]⟩]⟩)
        [("Q1", ⟨.code, 0, [], 1⟩), ("Q2", ⟨.code, 0, [pys "1"], 1⟩)]).errors
      = [pys "list index out of range"] := by
  refine ⟨rfl, rfl, rfl⟩

/-- C3 (amended): for a code question whose cell source is retrievable with no
unreplaced placeholder and whose expected-outputs set is NON-EMPTY, grading
raises no exception: the question passes with full points exactly when the
extracted output flexibly matches some expected variant (first match wins);
on no match it scores 0 with previews of expected and actual output, each
truncated to at most 50 characters, in its feedback; and the questions after
it are still scored.  With an empty expected-outputs set and no match, an
`IndexError` aborts this and all subsequent questions of the notebook
(recovered at the notebook boundary), refuting the original claim. -/
theorem claim_C3_amended (nb : Notebook) (qid : String) (qc : QuestionConfig)
    (rest : List (String × QuestionConfig)) (src e0 : PyStr) (es : List PyStr)
    (hty : qc.qtype = .code)
    (heo : qc.expected_outputs = e0 :: es)
    (hsrc : get_cell_source nb qc.cell_index = .ok src)
    (hell : check_code_contains_ellipsis src = false) :
    ∃ output qr, get_cell_output nb qc.cell_index = .ok output ∧
      gradeQuestion nb qc = .ok qr ∧
      (qr.passed = true ∧ qr.score = qc.points ↔
        (qc.expected_outputs.any fun expected => check_output_matches output expected true)
          = true) ∧
      ((qc.expected_outputs.any fun expected => check_output_matches output expected true)
          = false →
        qr.passed = false ∧ qr.score = 0 ∧
        (pys "Expected output like: " ++ List.take 50 e0 ++ pys "...") ∈ qr.feedback ∧
        (pys "Got: " ++ List.take 50 output ++ pys "...") ∈ qr.feedback ∧
        (List.take 50 e0).length ≤ 50 ∧ (List.take 50 output).length ≤ 50) ∧
      runQuestions nb ((qid, qc) :: rest) =
        ⟨(qid, qr) :: (runQuestions nb rest).questions,
         qr.score + (runQuestions nb rest).overall_score,
         qc.points + (runQuestions nb rest).max_score,
         (runQuestions nb rest).errors⟩ := by
  obtain ⟨output, hout⟩ := get_cell_output_ok_of_source_ok nb qc.cell_index src hsrc
  obtain ⟨ty, idx, eo, pts⟩ := qc
  have hty' : ty = .code := hty
  subst hty'
  have heo' : eo = e0 :: es := heo
  subst heo'
  simp only at hsrc hout ⊢
  by_cases hm : ((e0 :: es).any fun expected => check_output_matches output expected true) = true
  · have hg : gradeQuestion nb ⟨.code, idx, e0 :: es, pts⟩ =
        .ok ⟨true, pts, pts, pys "✓ Correct output" :: lintBlock src⟩ := by
      simp [gradeQuestion, hsrc, hell, hout, hm]
    refine ⟨output, _, hout, hg, ?_, ?_, runQuestions_cons_ok nb qid _ rest _ hg⟩
    · simpa using hm
    · simp [hm]
  · have hm' : ((e0 :: es).any fun expected => check_output_matches output expected true)
        = false := by
      simpa using hm
    have hg : gradeQuestion nb ⟨.code, idx, e0 :: es, pts⟩ =
        .ok ⟨false, 0, pts,
          (pys "Expected output like: " ++ List.take 50 e0 ++ pys "...") ::
          (pys "Got: " ++ List.take 50 output ++ pys "...") :: lintBlock src⟩ := by
      simp [gradeQuestion, hsrc, hell, hout, hm']
    refine ⟨output, _, hout, hg, ?_, ?_, runQuestions_cons_ok nb qid _ rest _ hg⟩
    · simp [hm']
    · intro _
      refine ⟨rfl, rfl, List.mem_cons_self _ _,
        List.mem_cons_of_mem _ (List.mem_cons_self _ _), ?_, ?_⟩
      · simp [List.length_take]
      · simp [List.length_take]

/-- C3 witness: the amended statement evaluated on a concrete mismatching
code question (output `1`, sole expected output `2`). -/
theorem claim_C3_witness :
    ∃ output qr, get_cell_output sampleNb (0 : Int) = .ok output ∧
      gradeQuestion sampleNb ⟨.code, 0, [pys "2"], 1⟩ = .ok qr ∧
      (qr.passed = true ∧ qr.score = 1 ↔
        ([pys "2"].any fun expected => check_output_matches output expected true) = true) ∧
      (([pys "2"].any fun expected => check_output_matches output expected true) = false →
        qr.passed = false ∧ qr.score = 0 ∧
        (pys "Expected output like: " ++ List.take 50 (pys "2") ++ pys "...") ∈ qr.feedback ∧
        (pys "Got: " ++ List.take 50 output ++ pys "...") ∈ qr.feedback ∧
        (List.take 50 (pys "2")).length ≤ 50 ∧ (List.take 50 output).length ≤ 50) ∧
      runQuestions sampleNb [("Q1", ⟨.code, 0, [pys "2"], 1⟩)] =
        ⟨[("Q1", qr)], qr.score + (runQuestions sampleNb []).overall_score,
         1 + (runQuestions sampleNb []).max_score, (runQuestions sampleNb []).errors⟩ := by
  have h := claim_C3_amended sampleNb "Q1" ⟨.code, 0, [pys "2"], 1⟩ [] (pys "print(1)")
    (pys "2") [] rfl rfl rfl (by decide)
  obtain ⟨output, qr, h1, h2, h3, h4, h5⟩ := h
  exact ⟨output, qr, h1, h2, h3, h4, by simpa using h5⟩

/-- C4 witness: a code cell whose source still reads `print(...)` is scored 0
with the placeholder feedback even though its output (`x`) would match the
expected output. -/
theorem claim_C4_witness :
    gradeQuestion ⟨[⟨.code, pys "print(...)", [.stream (pys "x")]⟩]⟩
        ⟨.code, 0, [pys "x"], 2⟩ =
      .ok ⟨false, 0, 2, [pys "Code still contains \x27...\x27 placeholder"]⟩ :=
  claim_C4_ellipsis.2 ⟨[⟨.code, pys "print(...)", [.stream (pys "x")]⟩]⟩
    ⟨.code, 0, [pys "x"], 2⟩ (pys "print(...)") rfl rfl (by decide)

/-- C5 witness: the 31-character markdown answer of the sample notebook counts
as answered, so the essay question scores its full 3 points with the
manual-review feedback. -/
theorem claim_C5_witness :
    gradeQuestion sampleNb ⟨.essay, 1, [], 3⟩ =
      .ok (if true then
            ⟨true, 3, 3, [pys "✓ Answer provided (requires manual review)"]⟩
          else ⟨false, 0, 3, [pys "No answer provided or too short"]⟩) :=
  claim_C5_essay.2 sampleNb ⟨.essay, 1, [], 3⟩ true
    (pys "A reasonably long essay answer.") rfl rfl

/-- C6 counterexample: on a one-cell notebook, index `-1` is out of the
0-based range yet returns the cell's actual source and output rather than
empty text, and index `-2` raises `IndexError` rather than returning empty
text — refuting the claim for negative indices. -/
theorem claim_C6_counterexample :
    get_cell_source ⟨[⟨.code, pys "x", [.stream (pys "hi")]⟩]⟩ (-1) = .ok (pys "x") ∧
    get_cell_output ⟨[⟨.code, pys "x", [.stream (pys "hi")]⟩]⟩ (-1) = .ok (pys "hi") ∧
    ¬ (get_cell_source ⟨[⟨.code, pys "x", [.stream (pys "hi")]⟩]⟩ (-1) = .ok []) ∧
    get_cell_source ⟨[⟨.code, pys "x", [.stream (pys "hi")]⟩]⟩ (-2)
      = .error (pys "list index out of range") := by
  refine ⟨rfl, rfl, fun h => ?_, rfl⟩
  have h2 : (Except.ok (pys "x") : Except PyStr PyStr) = .ok [] :=
    (show get_cell_source ⟨[⟨.code, pys "x", [.stream (pys "hi")]⟩]⟩ (-1) = .ok (pys "x")
      from rfl).symm.trans h
  simp [pys] at h2

/-- C6 witness: the amended extractor behavior evaluated at the sample
notebook's code cell. -/
theorem claim_C6_witness :
    get_cell_source sampleNb (0 : Int) =
      .ok (Cell.mk .code (pys "print(1)") [.stream (pys "1")]).source ∧
    get_cell_output sampleNb (0 : Int) =
      .ok (if (Cell.mk .code (pys "print(1)") [.stream (pys "1")]).cell_type = .code
        then strip
          (((Cell.mk .code (pys "print(1)") [.stream (pys "1")]).outputs.map outputText).flatten)
        else []) :=
  (claim_C6_extractor sampleNb 0).2.2 ⟨.code, pys "print(1)", [.stream (pys "1")]⟩ rfl

theorem countDescriptive_eq (l : List PyStr) : countDescriptive l = l.countP isDescriptive := by
  suffices h : ∀ (init : Nat) (l : List PyStr),
      l.foldl (fun acc msg => if isDescriptive msg then acc + 1 else acc) init
        = init + l.countP isDescriptive by
    simpa [countDescriptive] using h 0 l
  intro init l
  induction l generalizing init with
  | nil => simp
  | cons m rest ih =>
    by_cases hd : isDescriptive m = true
    · simp [List.foldl_cons, hd, ih, List.countP_cons]
      omega
    · simp [List.foldl_cons, hd, ih, List.countP_cons]

/-- C8: a commit message is counted as descriptive exactly when its trimmed
length is at least 10 and its lowercase trimmed form is not one of
update/fix/wip/done/change/commit/save; `descriptive_count` counts exactly
the messages so classified; `descriptive_ratio` is `descriptive_count /
commit_count` (0 when there are no commits); and on the 5-commit example with
messages fix, wip, the long sphere-volume message, update and save, only the
long message counts: `descriptive_count = 1`, `descriptive_ratio = 1/5`. -/
theorem claim_C8_commit_analysis :
    (∀ msg : PyStr, isDescriptive msg =
        (decide (10 ≤ (strip msg).length) &&
          !(genericWords.contains (pyLower (strip msg))))) ∧
    (∀ (q : Except PyStr (Nat × PyStr)) (mc : Nat),
        (analyze_commits q mc).descriptive_count
          = (analyze_commits q mc).messages.countP isDescriptive) ∧
    (∀ (q : Except PyStr (Nat × PyStr)) (mc : Nat),
        (analyze_commits q mc).descriptive_ratio =
          if (analyze_commits q mc).commit_count = 0 then 0
          else ((analyze_commits q mc).descriptive_count : ℚ)
            / ((analyze_commits q mc).commit_count : ℚ)) ∧
    (analyze_commits (.ok (5,
        pys "fix\nwip\nadded sphere volume calculation with proper docstring\nupdate\nsave")) 3
      ).commit_count = 5 ∧
    (analyze_commits (.ok (5,
        pys "fix\nwip\nadded sphere volume calculation with proper docstring\nupdate\nsave")) 3
      ).descriptive_count = 1 ∧
    (analyze_commits (.ok (5,
        pys "fix\nwip\nadded sphere volume calculation with proper docstring\nupdate\nsave")) 3
      ).descriptive_ratio = 1 / 5 := by
  refine ⟨fun msg => ?_, fun q mc => ?_, fun q mc => ?_, rfl, by decide, ?_⟩
  · simp only [isDescriptive, strip_pyLower]
  · cases q with
    | error e => simp [analyze_commits]
    | ok p =>
      obtain ⟨n, s⟩ := p
      simp [analyze_commits, countDescriptive_eq]
  · cases q with
    | error e => simp [analyze_commits]
    | ok p =>
      obtain ⟨n, s⟩ := p
      by_cases hn : n = 0
      · subst hn
        simp [analyze_commits]
      · have hpos : 0 < n := Nat.pos_of_ne_zero hn
        simp [analyze_commits, hn, hpos]
  · have hc : countDescriptive (splitNl (strip
        (pys "fix\nwip\nadded sphere volume calculation with proper docstring\nupdate\nsave")))
          = 1 := by decide
    simp [analyze_commits, hc]

end Grading
